import Mathlib

/-!
Verification of the request-handling contract of a small Rocket/sqlx CRUD
service for a `User` resource.

The controller layer (`src/controllers/user_controller.rs`), the input DTO
(`src/dto/user_dto.rs`) and the test fixture helper
(`src/test/repositories/prepare/user.rs`) are embedded directly from the
source.  The entity type, the application-error type, the repository and
the use-case layer are not part of the visible source; they are modelled
from the specification (§3, §4.1, §4.2, §7), and each such definition is
marked `Modelled from the spec:` in its doc comment.

Handlers are polymorphic over the use-case functions they invoke, exactly
as in the source, where `app.use_cases.user` is an injected, mockable
trait object.
-/

namespace RocketApp

/-- Modelled from the spec: §3 — `models/user_model.rs` is not in the visible
source.  Persisted entity with a system-assigned integer `id`, text `name`
and integer `age`. -/
structure User where
  id : Int
  name : String
  age : Int
deriving Repr, DecidableEq

/-- Input DTO from `src/dto/user_dto.rs`: `pub struct UserName { pub name:
String, pub age: i32 }`. -/
structure UserName where
  name : String
  age : Int
deriving Repr, DecidableEq

/-- Modelled from the spec: §7 — `error/app_error.rs` is not in the visible
source.  A single application-error kind carrying a numeric status code and
a message. -/
structure AppError where
  code : Nat
  message : String
deriving Repr, DecidableEq

/-- Constructor mirroring `AppError::new(code, msg)` as called by the
controller. -/
def AppError.new (code : Nat) (message : String) : AppError :=
  ⟨code, message⟩

/-- Rocket's `Json<T>` wrapper as used by the controller; `into_inner`
unwraps the deserialized body. -/
structure Json (α : Type) where
  into_inner : α
deriving Repr, DecidableEq

/-- Modelled from the spec: §4.1/§7 — `repositories/error.rs` is not in the
visible source.  Database error taxonomy: a "not found" kind and a generic
database-failure kind. -/
inductive DbRepoError where
  | notFound : DbRepoError
  | database : String → DbRepoError
deriving Repr, DecidableEq

/-- Modelled from the spec: §4.1 — the storage backing the repository.
`users` is the table contents; `nextId` is the id-assignment counter of the
storage (system-assigned ids). -/
structure Store where
  users : List User
  nextId : Int
deriving Repr, DecidableEq

/-- Well-formedness of a store: every stored id is below the counter, so a
freshly assigned id is distinct from all stored ones.  Holds for the empty
store and is preserved by every repository operation. -/
def Store.wf (s : Store) : Prop :=
  ∀ u ∈ s.users, u.id < s.nextId

instance (s : Store) : Decidable s.wf := by
  unfold Store.wf; infer_instance

/-- Modelled from the spec: §4.1 — `repositories/user_repo.rs` is not in
the visible source.  `find_all(connection) -> sequence<User>`: returns all
stored users in storage-defined order (the success path; connectivity
failures originate outside the model). -/
def repoFindAll (s : Store) : Except DbRepoError (List User) :=
  .ok s.users

/-- Modelled from the spec: §4.1 — `create(connection, name, age) -> User`:
inserts a new row and returns it with the assigned id (the success path;
constraint/connectivity failures originate outside the model). -/
def repoCreate (s : Store) (name : String) (age : Int) : User × Store :=
  let u : User := ⟨s.nextId, name, age⟩
  (u, ⟨s.users ++ [u], s.nextId + 1⟩)

/-- Modelled from the spec: §4.1 — `update(connection, id, name, age) ->
User`: fails with the "not found" error kind if `id` does not exist;
otherwise overwrites `name`/`age` of the row and returns the updated
entity. -/
def repoUpdate (s : Store) (id : Int) (name : String) (age : Int) :
    Except DbRepoError (User × Store) :=
  if s.users.any (fun u => u.id == id) then
    .ok (⟨id, name, age⟩,
      ⟨s.users.map (fun u => if u.id == id then ⟨id, name, age⟩ else u),
        s.nextId⟩)
  else
    .error .notFound

/-- Modelled from the spec: §4.1 — `delete(connection, id) -> ()`: fails
with "not found" if `id` does not exist; otherwise removes the row. -/
def repoDelete (s : Store) (id : Int) : Except DbRepoError Store :=
  if s.users.any (fun u => u.id == id) then
    .ok ⟨s.users.filter (fun u => !(u.id == id)), s.nextId⟩
  else
    .error .notFound

namespace UserController

/-- Handler `index` from `src/controllers/user_controller.rs` lines 11–16:
awaits `use_cases.user.find_all`, propagates its error with `?`, and wraps
the users in `Json`.  The injected use-case call is the parameter. -/
def index (find_all : Except AppError (List User)) :
    Except AppError (Json (List User)) := do
  let users ← find_all
  pure (Json.mk users)

/-- Handler `add` from `src/controllers/user_controller.rs` lines 19–46:
unwraps the body, rejects `age > 32` with `AppError::new(400, "age must be
less than 32")`, otherwise awaits `use_cases.user.create(name, age)`,
propagates its error with `?`, and wraps the user in `Json`. -/
def add (create : String → Int → Except AppError User)
    (user_json : Json UserName) : Except AppError (Json User) :=
  let inner := user_json.into_inner
  let name := inner.name
  let age := inner.age
  if age > 32 then
    .error (AppError.new 400 "age must be less than 32")
  else do
    let user ← create name age
    pure (Json.mk user)

/-- Handler `update` from `src/controllers/user_controller.rs` lines 48–68:
unwraps the body and awaits `use_cases.user.update(id, name, age)` with no
validation, propagating its error with `?`. -/
def update (uc_update : Int → String → Int → Except AppError User)
    (id : Int) (user_json : Json UserName) : Except AppError (Json User) := do
  let inner := user_json.into_inner
  let name := inner.name
  let age := inner.age
  let user ← uc_update id name age
  pure (Json.mk user)

/-- Handler `delete` from `src/controllers/user_controller.rs` lines 70–75:
awaits `use_cases.user.delete(id)`, propagates its error with `?`, and
returns `Ok(())`. -/
def delete (uc_delete : Int → Except AppError Unit) (id : Int) :
    Except AppError Unit := do
  let _ ← uc_delete id
  pure ()

end UserController

/-- Modelled from the spec: §4.3/§6/§7 — the HTTP rendering of a handler
result (Rocket responder implementations are not in the visible source).
Success renders status 200 with the serialized body; an error renders its
numeric code as the status and its message verbatim as the body.  `ser` is
the external JSON serializer. -/
def render (ser : α → String) : Except AppError α → Nat × String
  | .ok a => (200, ser a)
  | .error e => (e.code, e.message)

/-- Test fixture helper `create_user` from
`src/test/repositories/prepare/user.rs` lines 6–11: calls the repository's
`create` directly with name `"fer"` and age `31` and returns its result
unchanged. -/
def create_user (db_con : Store) : User × Store :=
  let name := "fer"
  let age : Int := 31
  repoCreate db_con name age

end RocketApp

namespace RocketApp

/-- Helper: a store's `any`-membership test agrees with propositional
membership on ids. -/
theorem any_id_eq_iff (l : List User) (id : Int) :
    l.any (fun u => u.id == id) = true ↔ ∃ u ∈ l, u.id = id := by
  simp [List.any_eq_true]

/-- Claim C1: for every create request whose body has `age > 32`, the `add`
handler returns the error `AppError::new(400, "age must be less than 32")`,
the rendered HTTP response has status exactly 400 and body exactly that
literal string under every serializer, and the result is the same for
every injected create use-case — so the create use-case (and the
repository behind it) is never invoked. -/
theorem add_rejects_age_gt_32
    (create : String → Int → Except AppError User) (input : UserName)
    (h : input.age > 32) :
    UserController.add create (Json.mk input)
      = .error (AppError.new 400 "age must be less than 32")
    ∧ (∀ ser : Json User → String,
        render ser (UserController.add create (Json.mk input))
          = (400, "age must be less than 32"))
    ∧ (∀ create' : String → Int → Except AppError User,
        UserController.add create' (Json.mk input)
          = UserController.add create (Json.mk input)) := by
  refine ⟨?_, ?_, ?_⟩ <;>
    simp [UserController.add, h, render, AppError.new]

/-- Witness for C1 at the spec's scenario input `{"name":"x","age":33}`. -/
theorem add_rejects_age_gt_32_witness :
    UserController.add (fun n a => .ok ⟨1, n, a⟩) (Json.mk ⟨"x", 33⟩)
      = .error (AppError.new 400 "age must be less than 32") :=
  (add_rejects_age_gt_32 (fun n a => .ok ⟨1, n, a⟩) ⟨"x", 33⟩ (by decide)).1

/-- Claim C2: for every create request with `age ≤ 32` (boundary `32` and
negative ages included), the `add` handler invokes the create use-case with
exactly the request's name and age; composed with the repository's create
on a well-formed store, it succeeds, the rendered status is 200, the
returned user's name and age equal the input's, and its id differs from
every previously stored user's id. -/
theorem add_accepts_age_le_32 (s : Store) (input : UserName)
    (hage : input.age ≤ 32) (hwf : s.wf) :
    (∀ create : String → Int → Except AppError User,
      UserController.add create (Json.mk input)
        = (create input.name input.age).map Json.mk)
    ∧ UserController.add (fun n a => .ok (repoCreate s n a).1) (Json.mk input)
        = .ok (Json.mk (repoCreate s input.name input.age).1)
    ∧ (repoCreate s input.name input.age).1.name = input.name
    ∧ (repoCreate s input.name input.age).1.age = input.age
    ∧ (∀ ser : Json User → String,
        (render ser (UserController.add
          (fun n a => .ok (repoCreate s n a).1) (Json.mk input))).1 = 200)
    ∧ (∀ u ∈ s.users, (repoCreate s input.name input.age).1.id ≠ u.id) := by
  have hnot : ¬ input.age > 32 := not_lt.mpr hage
  refine ⟨?_, ?_, rfl, rfl, ?_, ?_⟩
  · intro create
    cases hc : create input.name input.age <;>
      simp [UserController.add, hnot, hc, Except.map]
  · simp [UserController.add, hnot]
  · intro ser
    simp [UserController.add, hnot, render]
  · intro u hu
    have := hwf u hu
    simp only [repoCreate]
    omega

/-- Witness for C2 at the spec's scenario input `{"name":"fer","age":31}`
against a well-formed one-user store. -/
theorem add_accepts_age_le_32_witness :
    (⟨"fer", 31⟩ : UserName).age ≤ 32
    ∧ (⟨[⟨0, "a", 20⟩], 1⟩ : Store).wf
    ∧ UserController.add
        (fun n a => .ok (repoCreate ⟨[⟨0, "a", 20⟩], 1⟩ n a).1)
        (Json.mk ⟨"fer", 31⟩)
        = .ok (Json.mk (repoCreate ⟨[⟨0, "a", 20⟩], 1⟩ "fer" 31).1) :=
  ⟨by decide, by decide,
    (add_accepts_age_le_32 ⟨[⟨0, "a", 20⟩], 1⟩ ⟨"fer", 31⟩
      (by decide) (by decide)).2.1⟩

/-- Claim C3: the `update` handler performs no validation: for every id,
name and age (over-limit and negative ages and arbitrary names included),
it is exactly the injected update use-case applied to the given id, name
and age, with its result passed through — so the handler itself never
raises an error. -/
theorem update_no_validation
    (uc_update : Int → String → Int → Except AppError User)
    (id : Int) (input : UserName) :
    UserController.update uc_update id (Json.mk input)
      = (uc_update id input.name input.age).map Json.mk := by
  cases hc : uc_update id input.name input.age <;>
    simp [UserController.update, hc, Except.map]

/-- Claim C4: every use-case error `e` surfaced to any of the four handlers
renders as an HTTP response with status exactly `e.code` and body exactly
`e.message`, under every serializer (for `add`, provided validation does
not fire first). -/
theorem error_mapping (e : AppError) (id : Int) (input : UserName)
    (hage : input.age ≤ 32)
    (serL : Json (List User) → String) (serU : Json User → String)
    (serD : Unit → String) :
    render serL (UserController.index (.error e)) = (e.code, e.message)
    ∧ render serU (UserController.add (fun _ _ => .error e) (Json.mk input))
        = (e.code, e.message)
    ∧ render serU (UserController.update (fun _ _ _ => .error e) id
        (Json.mk input)) = (e.code, e.message)
    ∧ render serD (UserController.delete (fun _ => .error e) id)
        = (e.code, e.message) := by
  have hnot : ¬ input.age > 32 := not_lt.mpr hage
  refine ⟨rfl, ?_, rfl, rfl⟩
  simp [UserController.add, hnot, render]

/-- Witness for C4 at the spec's scenario: `find_all` failing with
`(500, "error!")` renders GET `/` as status 500 with body `"error!"`. -/
theorem error_mapping_witness :
    (⟨"x", 1⟩ : UserName).age ≤ 32
    ∧ render (fun _ => "")
        (UserController.index (.error (AppError.new 500 "error!")))
        = (500, "error!") :=
  ⟨by decide,
    (error_mapping (AppError.new 500 "error!") 0 ⟨"x", 1⟩ (by decide)
      (fun _ => "") (fun _ => "") (fun _ => "")).1⟩

/-- Claim C5: no handler recovers an error locally: whenever the invoked
use-case returns an error `e`, each of the four handlers returns that same
`e` unchanged as its result (for `add`, provided validation does not fire
first). -/
theorem errors_propagate_unchanged (e : AppError) (id : Int)
    (input : UserName) (hage : input.age ≤ 32) :
    UserController.index (.error e) = .error e
    ∧ UserController.add (fun _ _ => .error e) (Json.mk input) = .error e
    ∧ UserController.update (fun _ _ _ => .error e) id (Json.mk input)
        = .error e
    ∧ UserController.delete (fun _ => .error e) id = .error e := by
  have hnot : ¬ input.age > 32 := not_lt.mpr hage
  refine ⟨rfl, ?_, rfl, rfl⟩
  simp [UserController.add, hnot]

/-- Witness for C5 at the error `(500, "error!")` and input `age = 1`. -/
theorem errors_propagate_unchanged_witness :
    (⟨"x", 1⟩ : UserName).age ≤ 32
    ∧ UserController.index (.error (AppError.new 500 "error!"))
        = .error (AppError.new 500 "error!") :=
  ⟨by decide,
    (errors_propagate_unchanged (AppError.new 500 "error!") 0 ⟨"x", 1⟩
      (by decide)).1⟩

end RocketApp

namespace RocketApp

/-- Claim C6: the repository's update fails with the "not found" error kind
exactly when no stored user has the given id; when one exists, it returns
the updated user whose id equals the given id (unchanged) with the given
name and age, and in the resulting store every row with that id carries the
overwritten name and age. -/
theorem update_not_found_iff (s : Store) (id : Int) (name : String)
    (age : Int) :
    (repoUpdate s id name age = .error .notFound ↔ ∀ u ∈ s.users, u.id ≠ id)
    ∧ ((∃ u ∈ s.users, u.id = id) →
        ∃ s', repoUpdate s id name age = .ok (⟨id, name, age⟩, s')
          ∧ ∀ v ∈ s'.users, v.id = id → v.name = name ∧ v.age = age) := by
  constructor
  · constructor
    · intro h u hu
      intro heq
      have hany : s.users.any (fun u => u.id == id) = true :=
        (any_id_eq_iff s.users id).mpr ⟨u, hu, heq⟩
      simp [repoUpdate, hany] at h
    · intro h
      have hany : s.users.any (fun u => u.id == id) = false := by
        rw [Bool.eq_false_iff]
        intro hc
        obtain ⟨u, hu, heq⟩ := (any_id_eq_iff s.users id).mp hc
        exact h u hu heq
      simp [repoUpdate, hany]
  · rintro ⟨u, hu, heq⟩
    have hany : s.users.any (fun u => u.id == id) = true :=
      (any_id_eq_iff s.users id).mpr ⟨u, hu, heq⟩
    refine ⟨⟨s.users.map (fun u => if u.id == id then ⟨id, name, age⟩ else u),
      s.nextId⟩, by simp [repoUpdate, hany], ?_⟩
    intro v hv hvid
    simp only [List.mem_map] at hv
    obtain ⟨w, hw, hweq⟩ := hv
    by_cases hwid : w.id = id
    · simp [hwid] at hweq
      subst hweq
      exact ⟨rfl, rfl⟩
    · have : (w.id == id) = false := beq_eq_false_iff_ne.mpr hwid
      simp [this] at hweq
      subst hweq
      exact absurd hvid hwid

/-- Witness for C6: on the store `[{id 1, "a", 20}]`, update of id 2 fails
not-found and update of id 1 succeeds. -/
theorem update_not_found_iff_witness :
    (repoUpdate ⟨[⟨1, "a", 20⟩], 2⟩ 2 "b" 5 = .error .notFound
      ↔ ∀ u ∈ (⟨[⟨1, "a", 20⟩], 2⟩ : Store).users, u.id ≠ 2)
    ∧ ((∃ u ∈ (⟨[⟨1, "a", 20⟩], 2⟩ : Store).users, u.id = 1) →
        ∃ s', repoUpdate ⟨[⟨1, "a", 20⟩], 2⟩ 1 "b" 5 = .ok (⟨1, "b", 5⟩, s')
          ∧ ∀ v ∈ s'.users, v.id = 1 → v.name = "b" ∧ v.age = 5) :=
  ⟨(update_not_found_iff ⟨[⟨1, "a", 20⟩], 2⟩ 2 "b" 5).1,
    (update_not_found_iff ⟨[⟨1, "a", 20⟩], 2⟩ 1 "b" 5).2⟩

/-- Claim C7: the repository's delete fails with "not found" exactly when
no stored user has the given id; when one exists, it yields a store in
which no user has that id (so a subsequent find-all no longer contains it)
and a second delete of the same id fails not-found; and a delete handler
whose use-case succeeds renders as status 200 with an empty body. -/
theorem delete_not_found_iff (s : Store) (id : Int) :
    (repoDelete s id = .error .notFound ↔ ∀ u ∈ s.users, u.id ≠ id)
    ∧ ((∃ u ∈ s.users, u.id = id) →
        ∃ s', repoDelete s id = .ok s'
          ∧ (∀ u ∈ s'.users, u.id ≠ id)
          ∧ repoDelete s' id = .error .notFound)
    ∧ (∀ uc : Int → Except AppError Unit, uc id = .ok () →
        render (fun _ : Unit => "") (UserController.delete uc id)
          = (200, "")) := by
  refine ⟨⟨?_, ?_⟩, ?_, ?_⟩
  · intro h u hu heq
    have hany : s.users.any (fun u => u.id == id) = true :=
      (any_id_eq_iff s.users id).mpr ⟨u, hu, heq⟩
    simp [repoDelete, hany] at h
  · intro h
    have hany : s.users.any (fun u => u.id == id) = false := by
      rw [Bool.eq_false_iff]
      intro hc
      obtain ⟨u, hu, heq⟩ := (any_id_eq_iff s.users id).mp hc
      exact h u hu heq
    simp [repoDelete, hany]
  · rintro ⟨u, hu, heq⟩
    have hany : s.users.any (fun u => u.id == id) = true :=
      (any_id_eq_iff s.users id).mpr ⟨u, hu, heq⟩
    have hgone : ∀ v ∈ s.users.filter (fun u => !(u.id == id)), v.id ≠ id := by
      intro v hv
      have := List.of_mem_filter hv
      simpa using this
    refine ⟨⟨s.users.filter (fun u => !(u.id == id)), s.nextId⟩,
      by simp [repoDelete, hany], hgone, ?_⟩
    have hany2 : (s.users.filter (fun u => !(u.id == id))).any
        (fun u => u.id == id) = false := by
      rw [Bool.eq_false_iff]
      intro hc
      obtain ⟨v, hv, heq2⟩ :=
        (any_id_eq_iff (s.users.filter (fun u => !(u.id == id))) id).mp hc
      exact hgone v hv heq2
    simp [repoDelete, hany2]
  · intro uc huc
    simp [UserController.delete, huc, render]

/-- Witness for C7: on the store `[{id 1, "a", 20}]`, delete of id 1
succeeds (and its conclusions hold there), and a succeeding use-case
renders 200 with empty body at id 1. -/
theorem delete_not_found_iff_witness :
    ((∃ u ∈ (⟨[⟨1, "a", 20⟩], 2⟩ : Store).users, u.id = 1) →
      ∃ s', repoDelete ⟨[⟨1, "a", 20⟩], 2⟩ 1 = .ok s'
        ∧ (∀ u ∈ s'.users, u.id ≠ 1)
        ∧ repoDelete s' 1 = .error .notFound)
    ∧ render (fun _ : Unit => "")
        (UserController.delete (fun _ => .ok ()) 1) = (200, "") :=
  ⟨(delete_not_found_iff ⟨[⟨1, "a", 20⟩], 2⟩ 1).2.1,
    (delete_not_found_iff ⟨[⟨1, "a", 20⟩], 2⟩ 1).2.2
      (fun _ => .ok ()) rfl⟩

/-- Claim C8: on find-all success the `index` handler passes the
repository's list through unchanged and renders status 200; the list it
returns equals (hence is order-insensitively equal, as multisets, to) the
currently stored users. -/
theorem index_returns_all_users (s : Store) (l : List User)
    (h : repoFindAll s = .ok l) :
    UserController.index (.ok l) = .ok (Json.mk l)
    ∧ l = s.users
    ∧ Multiset.ofList l = Multiset.ofList s.users
    ∧ ∀ ser : Json (List User) → String,
        (render ser (UserController.index (.ok l))).1 = 200 := by
  have hl : s.users = l := by
    simpa [repoFindAll] using h
  subst hl
  exact ⟨rfl, rfl, rfl, fun ser => rfl⟩

/-- Witness for C8 at a concrete two-user store. -/
theorem index_returns_all_users_witness :
    repoFindAll ⟨[⟨1, "a", 20⟩, ⟨2, "b", 30⟩], 3⟩
      = .ok [⟨1, "a", 20⟩, ⟨2, "b", 30⟩]
    ∧ UserController.index (.ok [⟨1, "a", 20⟩, ⟨2, "b", 30⟩])
      = .ok (Json.mk [⟨1, "a", 20⟩, ⟨2, "b", 30⟩]) :=
  ⟨rfl,
    (index_returns_all_users ⟨[⟨1, "a", 20⟩, ⟨2, "b", 30⟩], 3⟩
      [⟨1, "a", 20⟩, ⟨2, "b", 30⟩] rfl).1⟩

/-- Claim C9: the test fixture helper `create_user` is exactly the
repository's create applied to the constant name `"fer"` and constant age
`31`, with its result returned unchanged — it goes to the repository
directly, through no controller and hence no validation, and the created
row carries those constants. -/
theorem create_user_calls_repo_directly (s : Store) :
    create_user s = repoCreate s "fer" 31
    ∧ (create_user s).1.name = "fer"
    ∧ (create_user s).1.age = 31 :=
  ⟨rfl, rfl, rfl⟩

/-- Claim C10: the `add` handler's accept/reject decision depends only on
the age: for any two requests with equal age and arbitrary names, either
both are rejected with the identical 400 response, or both pass validation
and each invokes the create use-case with its own name and the common
age. -/
theorem add_validation_depends_only_on_age
    (create : String → Int → Except AppError User)
    (n1 n2 : String) (age : Int) :
    (UserController.add create (Json.mk ⟨n1, age⟩)
        = .error (AppError.new 400 "age must be less than 32")
      ∧ UserController.add create (Json.mk ⟨n2, age⟩)
        = .error (AppError.new 400 "age must be less than 32"))
    ∨ (UserController.add create (Json.mk ⟨n1, age⟩)
        = (create n1 age).map Json.mk
      ∧ UserController.add create (Json.mk ⟨n2, age⟩)
        = (create n2 age).map Json.mk) := by
  by_cases h : age > 32
  · left
    exact ⟨(add_rejects_age_gt_32 create ⟨n1, age⟩ h).1,
      (add_rejects_age_gt_32 create ⟨n2, age⟩ h).1⟩
  · right
    constructor
    · cases hc : create n1 age <;>
        simp [UserController.add, h, hc, Except.map]
    · cases hc : create n2 age <;>
        simp [UserController.add, h, hc, Except.map]

end RocketApp
